import Mathlib

/-!
Verification of the hybrid movie recommender's autoencoder and embedding
modules (`model/autoencoder.py`, `model/embedding.py`, `EmbeddingUtil.py`)
against their natural-language specification.  Python code is shallowly
embedded: numeric rows become lists over `ℚ` or `ℝ`, NumPy/PyTorch state is
threaded explicitly, and fallible operations return `Except`/`Option`.
-/

namespace MovieRec

/-- Rows of the feature matrix are finite rational vectors. -/
abbrev Row := List ℚ

/-! ## Seeded permutation model (`np.random.seed` / `np.random.permutation`)

`get_cv_idxs` calls `np.random.seed(seed)` followed by
`np.random.permutation(n)`.  NumPy's Mersenne-Twister generator is library
code, not part of this repository. -/

/-- Modelled from the spec: one step of a pseudo-random generator (a linear
congruential generator over 32-bit words stands in for NumPy's
Mersenne Twister, which is library code outside the repository). -/
def lcg (s : Nat) : Nat := (1664525 * s + 1013904223) % 4294967296

/-- Modelled from the spec: a seed-driven shuffle.  Each step draws the
element at pseudo-random position `s % length`, emits it, and recurses on the
remainder with the advanced generator.  `fuel` bounds the recursion. -/
def shuffleGo : Nat → Nat → List Nat → List Nat
  | _, 0, _ => []
  | s, fuel + 1, l =>
    match l with
    | [] => []
    | a :: t =>
      let j := s % (a :: t).length
      let x := (a :: t).getD j a
      x :: shuffleGo (lcg s) fuel ((a :: t).erase x)

/-- Modelled from the spec: `np.random.seed(seed)` followed by
`np.random.permutation(n)` — a deterministic pseudo-random permutation of
`[0, n)`; the spec relies only on it being a seed-determined permutation. -/
def np_random_permutation (seed n : Nat) : List Nat :=
  shuffleGo (lcg (seed + 1)) n (List.range n)

/-- Embedding of `get_cv_idxs(n, cv_idx, val_pct, seed)`
(`model/autoencoder.py`):
seed the generator, let `n_val = int(val_pct * n)`, permute `[0, n)` and
return the slice `idxs[cv_idx*n_val : cv_idx*n_val + n_val]`.  The fraction
is modelled as an exact rational, so Python's `int` truncation on a
non-negative value is the integer floor. -/
def get_cv_idxs (n cv_idx : Nat) (val_pct : ℚ) (seed : Nat) : List Nat :=
  let n_val := (⌊val_pct * n⌋).toNat
  let idx_start := cv_idx * n_val
  let idxs := np_random_permutation seed n
  (idxs.drop idx_start).take n_val

/-- Embedding of `split_by_idx(idxs, a)` (`model/autoencoder.py`) at a single
array: build the boolean mask that is true exactly at the positions listed in
`idxs` and return `(a[mask], a[~mask])` — the rows whose position is in
`idxs` (in position order, as NumPy boolean masking does), paired with the
remaining rows. -/
def split_by_idx (idxs : List Nat) (a : List α) : List α × List α :=
  ((a.enum.filter (fun q => decide (q.1 ∈ idxs))).map Prod.snd,
   (a.enum.filter (fun q => !decide (q.1 ∈ idxs))).map Prod.snd)

/-! ## Sample source (`AETrainingData`, `model/autoencoder.py`)

`__getitem__` runs `x, y = self.x[idx], self.x[idx]` — two NumPy views of
the same training row — and converts each with
`torch.from_numpy(·).type(torch.FloatTensor)`.  `torch.from_numpy` shares the
row's storage, and `Tensor.type` returns the *same* tensor when the data is
already float32 and only otherwise allocates a converted copy.  Storage is
modelled as an explicit heap of buffers; a tensor is a buffer handle. -/

/-- Heap of numeric buffers; a NumPy row or a torch tensor occupies one. -/
structure Heap where
  bufs : List Row

/-- Tensor (or NumPy row view): a handle to a heap buffer. -/
structure Tensor where
  buf : Nat

def readBuf (h : Heap) (i : Nat) : Row := h.bufs.getD i []

def writeBuf (h : Heap) (i : Nat) (v : Row) : Heap := ⟨h.bufs.set i v⟩

/-- Element dtype of the stored training matrix. -/
inductive DType
  | f32
  | f64
deriving DecidableEq

/-- Embedding of the `AETrainingData` dataset: buffer handles of the
training-partition rows, plus their dtype. -/
structure AETrainingData where
  xBufs : List Nat
  dtype : DType

/-- Embedding of `AETrainingData.__len__`. -/
def AETrainingData.size (d : AETrainingData) : Nat := d.xBufs.length

/-- Embedding of `AETrainingData.__getitem__(idx)`: both `x` and `y` view the
row at `idx`; `.type(torch.FloatTensor)` is the identity on float32 storage
(both results share the row buffer) and allocates a fresh converted copy for
any other dtype (each result gets its own new buffer). -/
def AETrainingData.getItem (d : AETrainingData) (h : Heap) (idx : Nat) :
    Heap × Tensor × Tensor :=
  let rowBuf := d.xBufs.getD idx 0
  match d.dtype with
  | DType.f32 => (h, ⟨rowBuf⟩, ⟨rowBuf⟩)
  | DType.f64 =>
    let v := readBuf h rowBuf
    (⟨h.bufs ++ [v, v]⟩, ⟨h.bufs.length⟩, ⟨h.bufs.length + 1⟩)

def tensorVals (h : Heap) (t : Tensor) : Row := readBuf h t.buf

/-- In-place update of one element of a tensor (e.g. `t[j] = v`). -/
def setTensorElem (h : Heap) (t : Tensor) (j : Nat) (v : ℚ) : Heap :=
  writeBuf h t.buf ((readBuf h t.buf).set j v)

/-! ## Real-valued network model (`Encoder`, `Decoder`, `model/autoencoder.py`)

Layer parameters carry real entries; a batch is a list of rows.  Evaluation
mode follows PyTorch semantics: dropout is the identity and batch norm uses
the running statistics; in training mode dropout consumes pseudo-random bits
and batch norm normalizes with the batch statistics and updates its running
buffers.  Torch's RNG is modelled by the same kind of seed-driven generator
as NumPy's. -/

abbrev RVec := List ℝ

abbrev RMat := List RVec

/-- Parameters of `nn.Linear(nin, nout)`. -/
structure LinearP where
  weight : RMat
  bias : RVec

/-- Parameters and buffers of `nn.BatchNorm1d(c)` (weight `gamma`, bias
`beta`, and the running statistics). -/
structure BnP where
  gamma : RVec
  beta : RVec
  running_mean : RVec
  running_var : RVec

noncomputable def dot (w x : RVec) : ℝ := ((w.zip x).map (fun q => q.1 * q.2)).sum

/-- Forward of `nn.Linear` on one row: `W x + b`. -/
noncomputable def linearFwd (p : LinearP) (x : RVec) : RVec :=
  (p.weight.zip p.bias).map (fun q => dot q.1 x + q.2)

/-- Forward of `nn.ReLU` on one row. -/
noncomputable def reluV (x : RVec) : RVec := x.map (fun a => max a 0)

/-- Logistic squashing function of `nn.Sigmoid`. -/
noncomputable def sigmoid (a : ℝ) : ℝ := 1 / (1 + Real.exp (-a))

noncomputable def sigmoidV (x : RVec) : RVec := x.map sigmoid

/-- Forward of `nn.BatchNorm1d` in evaluation mode on one row: normalize each
channel with the running statistics, then scale and shift
(`eps = 1e-5`). -/
noncomputable def bnEval (p : BnP) (x : RVec) : RVec :=
  ((x.zip (p.running_mean.zip p.running_var)).zip (p.gamma.zip p.beta)).map
    (fun q => q.2.1 * ((q.1.1 - q.1.2.1) / Real.sqrt (q.1.2.2 + 1/100000)) + q.2.2)

/-- Forward of `nn.Dropout(0.2)` in training mode on one row: each entry is
dropped with probability 1/5 (one generator draw per entry) and survivors are
scaled by `1/(1-0.2) = 5/4`. -/
noncomputable def dropoutV : Nat → RVec → RVec × Nat
  | s, [] => ([], s)
  | s, a :: t =>
    let s1 := lcg s
    let y := if s1 % 5 == 0 then 0 else a * (5/4)
    let r := dropoutV s1 t
    (y :: r.1, r.2)

noncomputable def linearB (p : LinearP) (X : RMat) : RMat := X.map (linearFwd p)

noncomputable def reluB (X : RMat) : RMat := X.map reluV

noncomputable def sigmoidB (X : RMat) : RMat := X.map sigmoidV

noncomputable def bnEvalB (p : BnP) (X : RMat) : RMat := X.map (bnEval p)

noncomputable def dropoutB : Nat → RMat → RMat × Nat
  | s, [] => ([], s)
  | s, row :: rest =>
    let r := dropoutV s row
    let rr := dropoutB r.2 rest
    (r.1 :: rr.1, rr.2)

noncomputable def meanL (c : RVec) : ℝ := c.sum / c.length

noncomputable def varL (c : RVec) : ℝ :=
  ((c.map (fun a => (a - meanL c) ^ 2)).sum) / c.length

/-- Forward of `nn.BatchNorm1d` in training mode on a batch: normalize with
the per-channel batch mean and biased variance, and update the running
statistics with momentum 0.1 (running variance uses the unbiased batch
variance, as torch does). -/
noncomputable def bnTrain (p : BnP) (X : RMat) : RMat × BnP :=
  let cols := X.transpose
  let mus := cols.map meanL
  let vars := cols.map varL
  let out := X.map (fun row =>
    ((row.zip (mus.zip vars)).zip (p.gamma.zip p.beta)).map
      (fun q => q.2.1 * ((q.1.1 - q.1.2.1) / Real.sqrt (q.1.2.2 + 1/100000)) + q.2.2))
  let unb := cols.map (fun c => varL c * ((c.length : ℝ) / ((c.length : ℝ) - 1)))
  (out,
   { p with
     running_mean := (p.running_mean.zip mus).map (fun q => (9/10) * q.1 + (1/10) * q.2),
     running_var := (p.running_var.zip unb).map (fun q => (9/10) * q.1 + (1/10) * q.2) })

/-- Embedding of the `Encoder` module: `Linear, BatchNorm, ReLU, Dropout,
Linear, BatchNorm, ReLU, Dropout` when batch norm is enabled, otherwise
`Linear, ReLU, Linear, ReLU`. -/
structure EncoderNet where
  lin1 : LinearP
  bn1 : BnP
  lin2 : LinearP
  bn2 : BnP
  use_bn : Bool

/-- Embedding of the `Decoder` module: `Linear, BatchNorm, ReLU, Dropout,
Linear, BatchNorm, Sigmoid` when batch norm is enabled, otherwise
`Linear, ReLU, Linear, Sigmoid`. -/
structure DecoderNet where
  lin1 : LinearP
  bn1 : BnP
  lin2 : LinearP
  bn2 : BnP
  use_bn : Bool

/-- Batch forward of `Encoder.forward`; in training mode it threads the
dropout RNG and returns the module with updated batch-norm buffers. -/
noncomputable def EncoderNet.forward (net : EncoderNet) (train : Bool)
    (rng : Nat) (X : RMat) : RMat × EncoderNet × Nat :=
  if net.use_bn then
    if train then
      let h1 := linearB net.lin1 X
      let b1 := bnTrain net.bn1 h1
      let h3 := reluB b1.1
      let d1 := dropoutB rng h3
      let h5 := linearB net.lin2 d1.1
      let b2 := bnTrain net.bn2 h5
      let h7 := reluB b2.1
      let d2 := dropoutB d1.2 h7
      (d2.1, { net with bn1 := b1.2, bn2 := b2.2 }, d2.2)
    else
      (reluB (bnEvalB net.bn2 (linearB net.lin2
        (reluB (bnEvalB net.bn1 (linearB net.lin1 X))))), net, rng)
  else
    (reluB (linearB net.lin2 (reluB (linearB net.lin1 X))), net, rng)

/-- Batch forward of `Decoder.forward`. -/
noncomputable def DecoderNet.forward (net : DecoderNet) (train : Bool)
    (rng : Nat) (X : RMat) : RMat × DecoderNet × Nat :=
  if net.use_bn then
    if train then
      let h1 := linearB net.lin1 X
      let b1 := bnTrain net.bn1 h1
      let h3 := reluB b1.1
      let d1 := dropoutB rng h3
      let h5 := linearB net.lin2 d1.1
      let b2 := bnTrain net.bn2 h5
      (sigmoidB b2.1, { net with bn1 := b1.2, bn2 := b2.2 }, d1.2)
    else
      (sigmoidB (bnEvalB net.bn2 (linearB net.lin2
        (reluB (bnEvalB net.bn1 (linearB net.lin1 X))))), net, rng)
  else
    (sigmoidB (linearB net.lin2 (reluB (linearB net.lin1 X))), net, rng)

/-- Single-row evaluation-mode forward of `Encoder.forward` (dropout is the
identity, batch norm uses running statistics). -/
noncomputable def EncoderNet.forwardRow (net : EncoderNet) (x : RVec) : RVec :=
  if net.use_bn then
    reluV (bnEval net.bn2 (linearFwd net.lin2
      (reluV (bnEval net.bn1 (linearFwd net.lin1 x)))))
  else
    reluV (linearFwd net.lin2 (reluV (linearFwd net.lin1 x)))

/-- Single-row evaluation-mode forward of `Decoder.forward`. -/
noncomputable def DecoderNet.forwardRow (net : DecoderNet) (z : RVec) : RVec :=
  if net.use_bn then
    sigmoidV (bnEval net.bn2 (linearFwd net.lin2
      (reluV (bnEval net.bn1 (linearFwd net.lin1 z)))))
  else
    sigmoidV (linearFwd net.lin2 (reluV (linearFwd net.lin1 z)))

/-- Shape discipline of `nn.Linear(nin, nout)` parameters. -/
def LinearWf (p : LinearP) (nin nout : Nat) : Prop :=
  p.weight.length = nout ∧ (∀ r ∈ p.weight, r.length = nin) ∧
    p.bias.length = nout

/-- Shape discipline of `nn.BatchNorm1d(c)` parameters. -/
def BnWf (p : BnP) (c : Nat) : Prop :=
  p.gamma.length = c ∧ p.beta.length = c ∧ p.running_mean.length = c ∧
    p.running_var.length = c

/-- Shapes of `Encoder(input_size, intermediate_size, encoding_size)`. -/
def EncoderWf (net : EncoderNet) (fSz iSz eSz : Nat) : Prop :=
  LinearWf net.lin1 fSz iSz ∧ BnWf net.bn1 iSz ∧
    LinearWf net.lin2 iSz eSz ∧ BnWf net.bn2 eSz

/-- Shapes of `Decoder(output_size, intermediate_size, encoding_size)`. -/
def DecoderWf (net : DecoderNet) (fSz iSz eSz : Nat) : Prop :=
  LinearWf net.lin1 eSz iSz ∧ BnWf net.bn1 iSz ∧
    LinearWf net.lin2 iSz fSz ∧ BnWf net.bn2 fSz

/-- Mean-squared-error loss with mean reduction (`nn.MSELoss`), over all
elements of equally-shaped batches. -/
noncomputable def mseLoss (X Y : RMat) : ℝ :=
  let ps := X.flatten.zip Y.flatten
  ((ps.map (fun q => (q.1 - q.2) ^ 2)).sum) / ps.length

/-! ## Checkpoint state dictionaries (`save_*` / `load_*`) -/

/-- Value of one `state_dict` entry (a weight matrix or a 1-d tensor). -/
inductive PVal
  | m (x : RMat)
  | v (x : RVec)

/-- Ordered key-to-tensor map produced by `Module.state_dict()`. -/
abbrev StateDict := List (String × PVal)

def lookupSD (sd : StateDict) (k : String) : Option PVal :=
  (sd.find? (fun q => q.1 == k)).map Prod.snd

def getMatSD (sd : StateDict) (k : String) (dflt : RMat) : RMat :=
  match lookupSD sd k with
  | some (PVal.m w) => w
  | _ => dflt

def getVecSD (sd : StateDict) (k : String) (dflt : RVec) : RVec :=
  match lookupSD sd k with
  | some (PVal.v w) => w
  | _ => dflt

def LinearP.state_dict (pre : String) (p : LinearP) : StateDict :=
  [(pre ++ "weight", PVal.m p.weight), (pre ++ "bias", PVal.v p.bias)]

def BnP.state_dict (pre : String) (p : BnP) : StateDict :=
  [(pre ++ "weight", PVal.v p.gamma), (pre ++ "bias", PVal.v p.beta),
   (pre ++ "running_mean", PVal.v p.running_mean),
   (pre ++ "running_var", PVal.v p.running_var)]

/-- Keys of `Encoder.state_dict()`: the `nn.Sequential` stored in attribute
`encoder` names its children by position, so parameters live under
`encoder.0.*, encoder.1.*, encoder.4.*, encoder.5.*` with batch norm and
under `encoder.0.*, encoder.2.*` without. -/
def EncoderNet.state_dict (net : EncoderNet) : StateDict :=
  if net.use_bn then
    net.lin1.state_dict "encoder.0." ++ net.bn1.state_dict "encoder.1." ++
      net.lin2.state_dict "encoder.4." ++ net.bn2.state_dict "encoder.5."
  else
    net.lin1.state_dict "encoder.0." ++ net.lin2.state_dict "encoder.2."

/-- Keys of `Decoder.state_dict()` (attribute `decoder`). -/
def DecoderNet.state_dict (net : DecoderNet) : StateDict :=
  if net.use_bn then
    net.lin1.state_dict "decoder.0." ++ net.bn1.state_dict "decoder.1." ++
      net.lin2.state_dict "decoder.4." ++ net.bn2.state_dict "decoder.5."
  else
    net.lin1.state_dict "decoder.0." ++ net.lin2.state_dict "decoder.2."

/-- Embedding of `Encoder.load_state_dict(ckpt, strict=False)`: every
parameter slot whose key occurs in the checkpoint takes the checkpoint value;
slots missing from the checkpoint keep their current value, and checkpoint
keys unknown to the module are ignored. -/
def EncoderNet.load_state_dict (net : EncoderNet) (ckpt : StateDict) :
    EncoderNet :=
  if net.use_bn then
    { net with
      lin1 := ⟨getMatSD ckpt "encoder.0.weight" net.lin1.weight,
               getVecSD ckpt "encoder.0.bias" net.lin1.bias⟩,
      bn1 := ⟨getVecSD ckpt "encoder.1.weight" net.bn1.gamma,
              getVecSD ckpt "encoder.1.bias" net.bn1.beta,
              getVecSD ckpt "encoder.1.running_mean" net.bn1.running_mean,
              getVecSD ckpt "encoder.1.running_var" net.bn1.running_var⟩,
      lin2 := ⟨getMatSD ckpt "encoder.4.weight" net.lin2.weight,
               getVecSD ckpt "encoder.4.bias" net.lin2.bias⟩,
      bn2 := ⟨getVecSD ckpt "encoder.5.weight" net.bn2.gamma,
              getVecSD ckpt "encoder.5.bias" net.bn2.beta,
              getVecSD ckpt "encoder.5.running_mean" net.bn2.running_mean,
              getVecSD ckpt "encoder.5.running_var" net.bn2.running_var⟩ }
  else
    { net with
      lin1 := ⟨getMatSD ckpt "encoder.0.weight" net.lin1.weight,
               getVecSD ckpt "encoder.0.bias" net.lin1.bias⟩,
      lin2 := ⟨getMatSD ckpt "encoder.2.weight" net.lin2.weight,
               getVecSD ckpt "encoder.2.bias" net.lin2.bias⟩ }

/-! ## The `AutoEncoder` object -/

/-- Device a tensor or module lives on. -/
inductive Device
  | cpu
  | cuda
deriving DecidableEq

/-- Value passed to a torch module: either a raw NumPy array or a torch
tensor on some device. -/
inductive PyVal
  | npArr (m : RMat)
  | torchTensor (dev : Device) (m : RMat)

/-- Embedding of the mutable `AutoEncoder` object.  `data` is the full
feature matrix kept by `__init__`; `val` the validation tensor; `batches` the
(input, target) batches the `DataLoader` yields per epoch.  The Adam update
(`optimizer.step()`) and autograd (`loss.backward()`) are torch library code,
carried as the object's oracle functions: `encOptStep params grads optState`
yields the stepped parameters and next optimizer state, and `autograd`
yields the gradients of the current loss with respect to each network's
flattened parameters. -/
structure AutoEncoder where
  data : RMat
  val : RMat
  batches : List (RMat × RMat)
  encoder : EncoderNet
  decoder : DecoderNet
  device : Device
  encGrad : RVec
  decGrad : RVec
  encOptState : RVec
  decOptState : RVec
  encOptStep : EncoderNet → RVec → RVec → EncoderNet × RVec
  decOptStep : DecoderNet → RVec → RVec → DecoderNet × RVec
  autograd : RMat → RMat → EncoderNet → DecoderNet → Bool → Nat → RVec × RVec
  training : Bool
  rng : Nat
  train_losses : List ℝ
  val_losses : List ℝ

/-- Embedding of `AutoEncoder.reset(train)`: put both networks in training
or evaluation mode. -/
def AutoEncoder.reset (s : AutoEncoder) (train : Bool) : AutoEncoder :=
  { s with training := train }

/-- Embedding of `AutoEncoder.train_step(input, target)`: zero both
optimizers' gradients, forward through encoder then decoder, take the MSE
loss against the target, back-propagate (autograd adds the loss gradients to
the zeroed accumulators), step both optimizers, and return the loss value. -/
noncomputable def AutoEncoder.train_step (s : AutoEncoder)
    (input target : RMat) : ℝ × AutoEncoder :=
  let encGrad0 := s.encGrad.map (fun _ => 0)
  let decGrad0 := s.decGrad.map (fun _ => 0)
  let fe := s.encoder.forward s.training s.rng input
  let fd := s.decoder.forward s.training fe.2.2 fe.1
  let loss := mseLoss fd.1 target
  let g := s.autograd input target s.encoder s.decoder s.training s.rng
  let encGrad1 := List.zipWith (· + ·) encGrad0 g.1
  let decGrad1 := List.zipWith (· + ·) decGrad0 g.2
  let se := s.encOptStep fe.2.1 encGrad1 s.encOptState
  let sd := s.decOptStep fd.2.1 decGrad1 s.decOptState
  (loss, { s with
    encoder := se.1, decoder := sd.1,
    encGrad := encGrad1, decGrad := decGrad1,
    encOptState := se.2, decOptState := sd.2,
    rng := fd.2.2 })

/-- Embedding of `AutoEncoder.get_val_loss(input, target)`: switch to
evaluation mode, forward through encoder then decoder, and return the MSE
loss against the target (module calls may in general update module state, so
the call result is threaded, though in evaluation mode it is unchanged). -/
noncomputable def AutoEncoder.get_val_loss (s : AutoEncoder)
    (input target : RMat) : ℝ × AutoEncoder :=
  let s1 := s.reset false
  let fe := s1.encoder.forward s1.training s1.rng input
  let fd := s1.decoder.forward s1.training fe.2.2 fe.1
  (mseLoss fd.1 target,
   { s1 with encoder := fe.2.1, decoder := fd.2.1, rng := fd.2.2 })

/-- Invocation of the Encoder on a Python value: torch layers require a
torch tensor on the module's device — passing a raw NumPy array raises a
TypeError. -/
noncomputable def AutoEncoder.encoderApply (s : AutoEncoder) (x : PyVal) :
    Except String RMat :=
  match x with
  | PyVal.npArr _ =>
    Except.error "TypeError: linear expected a Tensor, got numpy.ndarray"
  | PyVal.torchTensor dev m =>
    if dev = s.device then Except.ok ((s.encoder.forward s.training s.rng m).1)
    else Except.error "RuntimeError: input and weights are on different devices"

/-- Embedding of `AutoEncoder.get_encoded_representations()`: build the CUDA
float tensor `to_encode` from the full feature matrix, switch to evaluation
mode, then — as the source does — invoke the encoder on the raw NumPy matrix
`self.data`, leaving `to_encode` unused. -/
noncomputable def AutoEncoder.get_encoded_representations (s : AutoEncoder) :
    Except String RMat :=
  let to_encode := PyVal.torchTensor Device.cuda s.data
  let s1 := s.reset false
  let unused := to_encode
  s1.encoderApply (PyVal.npArr s1.data)

/-- Modelled from the spec and the commented-out source line
`encodings = self.encoder(to_encode).cpu().data.numpy()`: the intended
computation encodes the prepared tensor instead of the raw NumPy matrix. -/
noncomputable def get_encoded_representations_intended (s : AutoEncoder) :
    Except String RMat :=
  let to_encode := PyVal.torchTensor Device.cuda s.data
  let s1 := s.reset false
  s1.encoderApply to_encode

/-- Checkpoint directory contents: what `torch.save` wrote for each
network, if anything. -/
structure CheckpointDir where
  encoder_checkpoint : Option StateDict
  decoder_checkpoint : Option StateDict

/-- Embedding of `AutoEncoder.save_encoder()`. -/
def AutoEncoder.save_encoder (s : AutoEncoder) (d : CheckpointDir) :
    CheckpointDir :=
  { d with encoder_checkpoint := some s.encoder.state_dict }

/-- Embedding of `AutoEncoder.save_decoder()`. -/
def AutoEncoder.save_decoder (s : AutoEncoder) (d : CheckpointDir) :
    CheckpointDir :=
  { d with decoder_checkpoint := some s.decoder.state_dict }

/-- Embedding of `AutoEncoder.load_encoder()`: non-strict load of the
encoder checkpoint into the Encoder. -/
def AutoEncoder.load_encoder (s : AutoEncoder) (d : CheckpointDir) :
    AutoEncoder :=
  { s with encoder :=
      s.encoder.load_state_dict (d.encoder_checkpoint.getD []) }

/-- Embedding of `AutoEncoder.load_decoder()`: the source reads the decoder
checkpoint but loads it into `self.encoder`
(`self.encoder.load_state_dict(torch.load(decoder_checkpoint), strict=False)`),
not into the decoder. -/
def AutoEncoder.load_decoder (s : AutoEncoder) (d : CheckpointDir) :
    AutoEncoder :=
  { s with encoder :=
      s.encoder.load_state_dict (d.decoder_checkpoint.getD []) }

/-- One iteration of the inner batch loop of `AutoEncoder.train_loop`:
reset to training mode, take a training step, and every
`print_every_n_batches` batches (skipping batch 0) record the training loss
together with a freshly computed validation loss. -/
noncomputable def trainLoopBatch (p : Nat) (s : AutoEncoder)
    (ib : Nat × RMat × RMat) : AutoEncoder :=
  let s1 := s.reset true
  let r := s1.train_step ib.2.1 ib.2.2
  if ib.1 % p == 0 && ib.1 != 0 then
    let v := r.2.get_val_loss r.2.val r.2.val
    { v.2 with
      train_losses := v.2.train_losses ++ [r.1],
      val_losses := v.2.val_losses ++ [v.1] }
  else r.2

/-- One epoch of `AutoEncoder.train_loop`: iterate the enumerated batches. -/
noncomputable def AutoEncoder.train_epoch (s : AutoEncoder) (p : Nat) :
    AutoEncoder :=
  s.batches.enum.foldl (trainLoopBatch p) s

/-- Embedding of `AutoEncoder.train_loop(epochs, print_every_n_batches)`. -/
noncomputable def AutoEncoder.train_loop (s : AutoEncoder) (epochs p : Nat) :
    AutoEncoder :=
  (List.range epochs).foldl (fun st _ => st.train_epoch p) s


/-! ## Text embeddings (`model/embedding.py`)

`embedding_helper.get_embedding` dispatches on the model selector.  The NLTK
tokenizer, lemmatizer+stemmer, stop-word list and the BERT network are
external library components, passed in as parameters; the year-pattern
regular expression and the vector bookkeeping are embedded exactly. -/

/-- The check `len(token) == 5 and re.match(r'([1-3][0-9]{3}[s]{1})', token)`:
a five-character token whose first character is 1–3, followed by three
digits and a final `s`. -/
def isYearToken (t : String) : Bool :=
  t.length == 5 &&
    (match t.data with
     | [c1, c2, c3, c4, c5] =>
       (decide ('1' ≤ c1) && decide (c1 ≤ '3')) && c2.isDigit && c3.isDigit &&
         c4.isDigit && (c5 == 's')
     | _ => false)

/-- Body of the inner token loop of `get_bow_embedding`: find the token (year
tokens as-is, other tokens lemmatized, stemmed and lowered) in the ordered
dictionary keys and set that entry of the vector to 1;
`list(dictionary.keys()).index(...)` raises a ValueError when the token is
absent. -/
def bowSetToken (stemLemma : String → String) (dictKeys : List String)
    (vec : Row) (token : String) : Except String Row :=
  if isYearToken token then
    match dictKeys.indexOf? token with
    | some i => Except.ok (vec.set i 1)
    | none => Except.error "ValueError: token is not in list"
  else
    match dictKeys.indexOf? (stemLemma token.toLower) with
    | some i => Except.ok (vec.set i 1)
    | none => Except.error "ValueError: token is not in list"

/-- Body of the outer word loop of `get_bow_embedding`: lower-case the word,
normalize `sci-fi` to `scifi`, tokenize, drop stop words, and mark each
remaining token in the vector. -/
def bowWord (tokenize : String → List String) (stemLemma : String → String)
    (stop_words : List String) (dictKeys : List String) (vec : Row)
    (word : String) : Except String Row :=
  let tokens := tokenize ((word.toLower).replace "sci-fi" "scifi")
  let filtered := tokens.filter (fun w => !stop_words.contains w)
  filtered.foldlM (bowSetToken stemLemma dictKeys) vec

/-- Embedding of `get_bow_embedding(sentence, dictionary)`: start from the
zero vector of dimension `len(dictionary)` and mark the tokens of every word;
the transpose at the end turns the `(len, 1)` column into one row vector. -/
def get_bow_embedding (tokenize : String → List String)
    (stemLemma : String → String) (stop_words : List String)
    (sentence : List String) (dictKeys : List String) : Except String Row :=
  sentence.foldlM (bowWord tokenize stemLemma stop_words dictKeys)
    (List.replicate dictKeys.length 0)

/-- Embedding of `get_tf_idf_embedding(sentence)`: the body fits a
`TfidfVectorizer` and builds `tfidf_matrix`, but the function has no return
statement, so the call evaluates to Python's `None`. -/
def get_tf_idf_embedding (sentence : List String) : Option Row := none

/-- Embedding of `embedding_helper.get_embedding()`: dispatch on the model
selector; an unknown selector falls through and returns `None`.  `bert` is
the external pre-trained network, passed as an oracle. -/
def get_embedding (bert : List String → Row)
    (tokenize : String → List String) (stemLemma : String → String)
    (stop_words : List String) (dictKeys : List String)
    (sentence : List String) (model : String) : Except String (Option Row) :=
  if model == "bert" then Except.ok (some (bert sentence))
  else if model == "bow" then
    (get_bow_embedding tokenize stemLemma stop_words sentence dictKeys).map some
  else if model == "tf-idf" then Except.ok (get_tf_idf_embedding sentence)
  else Except.ok none


/-- Trivial linear layer used in concrete instantiations. -/
def zeroLinear : LinearP := ⟨[], []⟩

/-- Trivial batch-norm layer used in concrete instantiations. -/
def zeroBn : BnP := ⟨[], [], [], []⟩

/-- Degenerate encoder (no batch norm, empty layers). -/
def zeroEncoder : EncoderNet := ⟨zeroLinear, zeroBn, zeroLinear, zeroBn, false⟩

/-- Degenerate decoder (no batch norm, empty layers). -/
def zeroDecoder : DecoderNet := ⟨zeroLinear, zeroBn, zeroLinear, zeroBn, false⟩

/-- Concrete degenerate `AutoEncoder` object: empty data, identity optimizer
oracles and zero autograd oracle. -/
def aeZero : AutoEncoder :=
  ⟨[], [], [], zeroEncoder, zeroDecoder, Device.cuda, [], [], [], [],
   fun n _ o => (n, o), fun n _ o => (n, o),
   fun _ _ _ _ _ _ => ([], []), true, 0, [], []⟩


/-! ### Permutation facts -/

lemma shuffleGo_perm : ∀ (fuel s : Nat) (l : List Nat), l.length ≤ fuel →
    List.Perm (shuffleGo s fuel l) l := by
  intro fuel
  induction fuel with
  | zero =>
    intro s l hl
    have : l = [] := List.eq_nil_of_length_eq_zero (Nat.le_zero.mp hl)
    simp [this, shuffleGo]
  | succ fuel ih =>
    intro s l hl
    match l with
    | [] => simp [shuffleGo]
    | a :: t =>
      set j := s % (a :: t).length with hj
      have hjlt : j < (a :: t).length := Nat.mod_lt _ (by simp)
      set x := (a :: t).getD j a with hx
      have hxmem : x ∈ a :: t := by
        rw [hx, List.getD_eq_getElem _ _ hjlt]
        exact List.getElem_mem _
      have herase : ((a :: t).erase x).length ≤ fuel := by
        rw [List.length_erase_of_mem hxmem]
        simpa using Nat.le_of_succ_le_succ hl
      have hrec := ih (lcg s) ((a :: t).erase x) herase
      have hstep : shuffleGo s (fuel + 1) (a :: t)
          = x :: shuffleGo (lcg s) fuel ((a :: t).erase x) := by
        simp only [shuffleGo]
      rw [hstep]
      exact (hrec.cons x).trans (List.perm_cons_erase hxmem).symm

lemma np_random_permutation_perm (seed n : Nat) :
    List.Perm (np_random_permutation seed n) (List.range n) :=
  shuffleGo_perm n (lcg (seed + 1)) (List.range n) (by simp)

lemma np_random_permutation_nodup (seed n : Nat) :
    (np_random_permutation seed n).Nodup :=
  ((np_random_permutation_perm seed n).nodup_iff).mpr (List.nodup_range n)

lemma np_random_permutation_mem (seed n : Nat) {x : Nat}
    (hx : x ∈ np_random_permutation seed n) : x < n := by
  have := (np_random_permutation_perm seed n).mem_iff.mp hx
  simpa using this

lemma get_cv_idxs_nodup (n : Nat) (p : ℚ) (seed : Nat) :
    (get_cv_idxs n 0 p seed).Nodup := by
  have h : (get_cv_idxs n 0 p seed).Sublist (np_random_permutation seed n) := by
    simp only [get_cv_idxs, Nat.zero_mul, List.drop_zero]
    exact List.take_sublist _ _
  exact h.nodup (np_random_permutation_nodup seed n)

lemma get_cv_idxs_mem (n : Nat) (p : ℚ) (seed : Nat) {x : Nat}
    (hx : x ∈ get_cv_idxs n 0 p seed) : x < n := by
  have h : (get_cv_idxs n 0 p seed).Sublist (np_random_permutation seed n) := by
    simp only [get_cv_idxs, Nat.zero_mul, List.drop_zero]
    exact List.take_sublist _ _
  exact np_random_permutation_mem seed n (h.mem hx)

lemma floor_val_lt (n : Nat) (p : ℚ) (hn : 0 < n) (hp1 : p < 1) :
    (⌊p * (n : ℚ)⌋).toNat ≤ n := by
  have hcast : (0 : ℚ) < (n : ℚ) := by exact_mod_cast hn
  have hmul : p * (n : ℚ) < (n : ℚ) := by
    calc p * (n : ℚ) < 1 * (n : ℚ) := by
          exact mul_lt_mul_of_pos_right hp1 hcast
      _ = (n : ℚ) := one_mul _
  have hfloor : ⌊p * (n : ℚ)⌋ < (n : ℤ) := by
    apply Int.floor_lt.mpr
    exact_mod_cast hmul
  exact Int.toNat_le.mpr (le_of_lt hfloor)

lemma get_cv_idxs_length (n : Nat) (p : ℚ) (seed : Nat) (hn : 0 < n)
    (hp1 : p < 1) :
    (get_cv_idxs n 0 p seed).length = (⌊p * (n : ℚ)⌋).toNat := by
  have hlen : (np_random_permutation seed n).length = n :=
    (np_random_permutation_perm seed n).length_eq.trans (List.length_range n)
  simp only [get_cv_idxs, Nat.zero_mul, List.drop_zero, List.length_take, hlen]
  exact Nat.min_eq_left (floor_val_lt n p hn hp1)

/-- Selecting rows by a mask and its complement partitions the array:
concatenating `a[mask]` and `a[~mask]` is a permutation of `a`. -/
lemma split_by_idx_partition (idxs : List Nat) (a : List α) :
    List.Perm ((split_by_idx idxs a).1 ++ (split_by_idx idxs a).2) a := by
  have h := (List.filter_append_perm
    (fun q : Nat × α => decide (q.1 ∈ idxs)) a.enum).map Prod.snd
  rw [List.map_append] at h
  simpa [split_by_idx, List.enum_map_snd] using h

/-- When the index list has no duplicates and stays in range, the mask selects
exactly `idxs.length` rows. -/
lemma split_by_idx_fst_length (idxs : List Nat) (a : List α)
    (hnd : idxs.Nodup) (hsub : ∀ i ∈ idxs, i < a.length) :
    (split_by_idx idxs a).1.length = idxs.length := by
  have hperm : List.Perm ((List.range a.length).filter
      (fun i => decide (i ∈ idxs))) idxs := by
    apply (List.perm_ext_iff_of_nodup
      ((List.nodup_range a.length).filter _) hnd).mpr
    intro x
    simp only [List.mem_filter, List.mem_range, decide_eq_true_eq]
    exact ⟨fun h => h.2, fun h => ⟨hsub x h, h⟩⟩
  calc (split_by_idx idxs a).1.length
      = ((a.enum.filter (fun q => decide (q.1 ∈ idxs))).map Prod.snd).length :=
        rfl
    _ = List.countP (fun q : Nat × α => decide (q.1 ∈ idxs)) a.enum := by
        rw [List.length_map, List.countP_eq_length_filter]
    _ = List.countP (fun i => decide (i ∈ idxs)) (a.enum.map Prod.fst) := by
        rw [List.countP_map]; rfl
    _ = List.countP (fun i => decide (i ∈ idxs)) (List.range a.length) := by
        rw [List.enum_map_fst]
    _ = ((List.range a.length).filter (fun i => decide (i ∈ idxs))).length :=
        List.countP_eq_length_filter _ _
    _ = idxs.length := hperm.length_eq

lemma mask_filters_disjoint (idxs : List Nat) (n : Nat) :
    List.Disjoint ((List.range n).filter (fun i => decide (i ∈ idxs)))
      ((List.range n).filter (fun i => !decide (i ∈ idxs))) := by
  intro x hx hx2
  have h1 := (List.mem_filter.mp hx).2
  have h2 := (List.mem_filter.mp hx2).2
  simp only [decide_eq_true_eq, Bool.not_eq_true', decide_eq_false_iff_not] at h1 h2
  exact h2 h1

lemma mask_filters_cover (idxs : List Nat) (n : Nat) :
    List.Perm (((List.range n).filter (fun i => decide (i ∈ idxs))) ++
      ((List.range n).filter (fun i => !decide (i ∈ idxs)))) (List.range n) :=
  List.filter_append_perm _ _

lemma disjoint_of_all_not_elem (l1 l2 : List Nat)
    (h : l1.all (fun x => !l2.elem x) = true) : List.Disjoint l1 l2 := by
  intro a ha ha2
  have hx := List.all_eq_true.mp h a ha
  simp only [Bool.not_eq_true', ← Bool.not_eq_true, List.elem_iff] at hx
  exact hx ha2

/-- C2: for every `rowCount > 0` and `0 ≤ validationFraction < 1`, splitting
the matrix at the cross-validation indices produces a validation part of
exactly `floor(validationFraction * rowCount)` rows and a training part of the
remaining rows; the selected and unselected position sets are disjoint and
together cover `[0, rowCount)`, and the two row lists together are a
permutation of the matrix. -/
theorem get_cv_split_partition_spec (n : Nat) (p : ℚ) (seed : Nat)
    (data : List Row) (hn : 0 < n) (hp0 : 0 ≤ p) (hp1 : p < 1)
    (hdata : data.length = n) :
    (split_by_idx (get_cv_idxs n 0 p seed) data).1.length
        = (⌊p * (n : ℚ)⌋).toNat ∧
    (split_by_idx (get_cv_idxs n 0 p seed) data).2.length
        = n - (⌊p * (n : ℚ)⌋).toNat ∧
    List.Perm ((split_by_idx (get_cv_idxs n 0 p seed) data).1 ++
      (split_by_idx (get_cv_idxs n 0 p seed) data).2) data ∧
    List.Disjoint
      ((List.range n).filter (fun i => decide (i ∈ get_cv_idxs n 0 p seed)))
      ((List.range n).filter (fun i => !decide (i ∈ get_cv_idxs n 0 p seed))) ∧
    List.Perm
      (((List.range n).filter (fun i => decide (i ∈ get_cv_idxs n 0 p seed))) ++
       ((List.range n).filter (fun i => !decide (i ∈ get_cv_idxs n 0 p seed))))
      (List.range n) := by
  have hmem : ∀ i ∈ get_cv_idxs n 0 p seed, i < data.length := by
    intro i hi
    rw [hdata]
    exact get_cv_idxs_mem n p seed hi
  have h1 : (split_by_idx (get_cv_idxs n 0 p seed) data).1.length
      = (⌊p * (n : ℚ)⌋).toNat := by
    rw [split_by_idx_fst_length _ _ (get_cv_idxs_nodup n p seed) hmem]
    exact get_cv_idxs_length n p seed hn hp1
  have hperm := split_by_idx_partition (get_cv_idxs n 0 p seed) data
  have h2 : (split_by_idx (get_cv_idxs n 0 p seed) data).2.length
      = n - (⌊p * (n : ℚ)⌋).toNat := by
    have hlen := hperm.length_eq
    rw [List.length_append, h1, hdata] at hlen
    omega
  exact ⟨h1, h2, hperm, mask_filters_disjoint _ n, mask_filters_cover _ n⟩

/-- Witness for C2 at the spec scenario: a 10 × 4 matrix with fraction 1/5
(the spec's 0.2) and seed 0 gives 2 validation rows and 8 training rows. -/
theorem get_cv_split_partition_spec_witness :
    (0 < 10 ∧ (0 : ℚ) ≤ 1/5 ∧ (1/5 : ℚ) < 1 ∧
      (List.replicate 10 ([0, 0, 0, 0] : Row)).length = 10) ∧
    (split_by_idx (get_cv_idxs 10 0 (1/5) 0)
      (List.replicate 10 ([0, 0, 0, 0] : Row))).1.length
        = (⌊(1/5 : ℚ) * ((10 : Nat) : ℚ)⌋).toNat ∧
    (split_by_idx (get_cv_idxs 10 0 (1/5) 0)
      (List.replicate 10 ([0, 0, 0, 0] : Row))).2.length
        = 10 - (⌊(1/5 : ℚ) * ((10 : Nat) : ℚ)⌋).toNat ∧
    List.Perm ((split_by_idx (get_cv_idxs 10 0 (1/5) 0)
        (List.replicate 10 ([0, 0, 0, 0] : Row))).1 ++
      (split_by_idx (get_cv_idxs 10 0 (1/5) 0)
        (List.replicate 10 ([0, 0, 0, 0] : Row))).2)
      (List.replicate 10 ([0, 0, 0, 0] : Row)) ∧
    List.Disjoint
      ((List.range 10).filter (fun i => decide (i ∈ get_cv_idxs 10 0 (1/5) 0)))
      ((List.range 10).filter (fun i => !decide (i ∈ get_cv_idxs 10 0 (1/5) 0))) ∧
    List.Perm
      (((List.range 10).filter (fun i => decide (i ∈ get_cv_idxs 10 0 (1/5) 0))) ++
       ((List.range 10).filter (fun i => !decide (i ∈ get_cv_idxs 10 0 (1/5) 0))))
      (List.range 10) :=
  ⟨⟨by decide, by norm_num, by norm_num, by simp⟩,
    get_cv_split_partition_spec 10 (1/5) 0 (List.replicate 10 [0, 0, 0, 0])
      (by decide) (by norm_num) (by norm_num) (by simp)⟩

lemma get_cv_idxs_concrete_100 : get_cv_idxs 100 0 (1/5) 0
    = ((np_random_permutation 0 100).drop 0).take 20 := by
  simp only [get_cv_idxs]
  norm_num
  rfl

/-- C8: the split is deterministic — with rowCount 100, fraction 1/5 and
seed 0, two evaluations of the split yield the same index sets (the
permutation is a pure function of the seed), the validation set has 20
indices, the training set 80, they are disjoint, and together they cover
`[0, 100)`. -/
theorem get_cv_split_deterministic_concrete :
    get_cv_idxs 100 0 (1/5) 0 = get_cv_idxs 100 0 (1/5) 0 ∧
    split_by_idx (get_cv_idxs 100 0 (1/5) 0) (List.range 100)
      = split_by_idx (get_cv_idxs 100 0 (1/5) 0) (List.range 100) ∧
    (split_by_idx (get_cv_idxs 100 0 (1/5) 0) (List.range 100)).1.length = 20 ∧
    (split_by_idx (get_cv_idxs 100 0 (1/5) 0) (List.range 100)).2.length = 80 ∧
    List.Disjoint (split_by_idx (get_cv_idxs 100 0 (1/5) 0) (List.range 100)).1
      (split_by_idx (get_cv_idxs 100 0 (1/5) 0) (List.range 100)).2 ∧
    List.Perm ((split_by_idx (get_cv_idxs 100 0 (1/5) 0) (List.range 100)).1 ++
      (split_by_idx (get_cv_idxs 100 0 (1/5) 0) (List.range 100)).2)
      (List.range 100) := by
  refine ⟨rfl, rfl, ?_, ?_, ?_, ?_⟩
  · rw [get_cv_idxs_concrete_100]; decide
  · rw [get_cv_idxs_concrete_100]; decide
  · rw [get_cv_idxs_concrete_100]
    exact disjoint_of_all_not_elem _ _ (by decide)
  · rw [get_cv_idxs_concrete_100]; decide


lemma readBuf_writeBuf_ne (h : Heap) (i k : Nat) (v : Row) (hik : k ≠ i) :
    readBuf (writeBuf h i v) k = readBuf h k := by
  simp [readBuf, writeBuf, List.getD_eq_getElem?_getD,
    List.getElem?_set_ne (Ne.symm hik)]

lemma readBuf_append_two_left (h : Heap) (a b : Row) (k : Nat)
    (hk : k < h.bufs.length) :
    readBuf ⟨h.bufs ++ [a, b]⟩ k = readBuf h k := by
  simp [readBuf, List.getD_eq_getElem?_getD, List.getElem?_append, hk]

lemma readBuf_append_two_fst (h : Heap) (a b : Row) :
    readBuf ⟨h.bufs ++ [a, b]⟩ h.bufs.length = a := by
  rw [readBuf, List.getD_eq_getElem?_getD, List.getElem?_append_right (le_refl _)]
  simp

lemma readBuf_append_two_snd (h : Heap) (a b : Row) :
    readBuf ⟨h.bufs ++ [a, b]⟩ (h.bufs.length + 1) = b := by
  rw [readBuf, List.getD_eq_getElem?_getD, List.getElem?_append_right (by omega)]
  simp

/-- Counterexample to C5: with a float32 training matrix (one row `[0]`),
`__getitem__ 0` returns input and target sharing the row's storage — writing
`1` into the input changes the target from `[0]` to `[1]`, so the two are not
independent copies. -/
theorem aetd_getitem_alias_counterexample :
    tensorVals
      (AETrainingData.getItem ⟨[0], DType.f32⟩ ⟨[[0]]⟩ 0).1
      (AETrainingData.getItem ⟨[0], DType.f32⟩ ⟨[[0]]⟩ 0).2.2 = [0] ∧
    tensorVals
      (setTensorElem (AETrainingData.getItem ⟨[0], DType.f32⟩ ⟨[[0]]⟩ 0).1
        (AETrainingData.getItem ⟨[0], DType.f32⟩ ⟨[[0]]⟩ 0).2.1 0 1)
      (AETrainingData.getItem ⟨[0], DType.f32⟩ ⟨[[0]]⟩ 0).2.2 = [1] ∧
    ([1] : Row) ≠ [0] := by
  refine ⟨rfl, rfl, ?_⟩
  simp

/-- C5 as amended: `get(idx)` always returns input and target equal in value
to the training row, and whenever the stored matrix is *not* float32 (so the
dtype conversion allocates), the two tensors are independent copies — writing
into one, or into the underlying training row, leaves the others' values
unchanged. -/
theorem aetd_getitem_independent_copies (d : AETrainingData) (h : Heap)
    (idx : Nat) (hidx : idx < d.size) (hdt : d.dtype = DType.f64)
    (hrow : d.xBufs.getD idx 0 < h.bufs.length) :
    tensorVals (d.getItem h idx).1 (d.getItem h idx).2.1
      = readBuf h (d.xBufs.getD idx 0) ∧
    tensorVals (d.getItem h idx).1 (d.getItem h idx).2.2
      = readBuf h (d.xBufs.getD idx 0) ∧
    (∀ j v, tensorVals (setTensorElem (d.getItem h idx).1
        (d.getItem h idx).2.1 j v) (d.getItem h idx).2.2
      = tensorVals (d.getItem h idx).1 (d.getItem h idx).2.2) ∧
    (∀ j v, tensorVals (setTensorElem (d.getItem h idx).1
        (d.getItem h idx).2.2 j v) (d.getItem h idx).2.1
      = tensorVals (d.getItem h idx).1 (d.getItem h idx).2.1) ∧
    (∀ j v,
      tensorVals (setTensorElem (d.getItem h idx).1 ⟨d.xBufs.getD idx 0⟩ j v)
          (d.getItem h idx).2.1
        = tensorVals (d.getItem h idx).1 (d.getItem h idx).2.1 ∧
      tensorVals (setTensorElem (d.getItem h idx).1 ⟨d.xBufs.getD idx 0⟩ j v)
          (d.getItem h idx).2.2
        = tensorVals (d.getItem h idx).1 (d.getItem h idx).2.2) := by
  have hget : d.getItem h idx
      = (⟨h.bufs ++ [readBuf h (d.xBufs.getD idx 0),
          readBuf h (d.xBufs.getD idx 0)]⟩,
         ⟨h.bufs.length⟩, ⟨h.bufs.length + 1⟩) := by
    simp only [AETrainingData.getItem, hdt]
  rw [hget]
  simp only [tensorVals, setTensorElem]
  refine ⟨readBuf_append_two_fst h _ _, readBuf_append_two_snd h _ _, ?_, ?_, ?_⟩
  · intro j v
    exact readBuf_writeBuf_ne _ _ _ _ (by omega)
  · intro j v
    exact readBuf_writeBuf_ne _ _ _ _ (by omega)
  · intro j v
    constructor
    · exact readBuf_writeBuf_ne _ _ _ _ (by omega)
    · exact readBuf_writeBuf_ne _ _ _ _ (by omega)

/-- Witness for the amended C5 at a concrete float64 matrix with one row. -/
theorem aetd_getitem_independent_copies_witness :
    (0 < AETrainingData.size ⟨[0], DType.f64⟩ ∧
      (AETrainingData.dtype ⟨[0], DType.f64⟩) = DType.f64 ∧
      (List.getD [0] 0 0) < (Heap.bufs ⟨[[5]]⟩).length) ∧
    tensorVals
      (AETrainingData.getItem ⟨[0], DType.f64⟩ ⟨[[5]]⟩ 0).1
      (AETrainingData.getItem ⟨[0], DType.f64⟩ ⟨[[5]]⟩ 0).2.1
      = readBuf ⟨[[5]]⟩ (List.getD [0] 0 0) ∧
    (∀ j v, tensorVals (setTensorElem
        (AETrainingData.getItem ⟨[0], DType.f64⟩ ⟨[[5]]⟩ 0).1
        (AETrainingData.getItem ⟨[0], DType.f64⟩ ⟨[[5]]⟩ 0).2.1 j v)
        (AETrainingData.getItem ⟨[0], DType.f64⟩ ⟨[[5]]⟩ 0).2.2
      = tensorVals (AETrainingData.getItem ⟨[0], DType.f64⟩ ⟨[[5]]⟩ 0).1
        (AETrainingData.getItem ⟨[0], DType.f64⟩ ⟨[[5]]⟩ 0).2.2) :=
  ⟨⟨by decide, rfl, by decide⟩,
    (aetd_getitem_independent_copies ⟨[0], DType.f64⟩ ⟨[[5]]⟩ 0
      (by decide) rfl (by decide)).1,
    (aetd_getitem_independent_copies ⟨[0], DType.f64⟩ ⟨[[5]]⟩ 0
      (by decide) rfl (by decide)).2.2.1⟩

/-! ## Encoding the full matrix (C1) -/

lemma encoder_forward_eval_length (net : EncoderNet) (rng : Nat) (X : RMat) :
    ((net.forward false rng X).1).length = X.length := by
  by_cases h : net.use_bn <;>
    simp [EncoderNet.forward, h, reluB, bnEvalB, linearB]

/-- C1 (code evaluation): `get_encoded_representations` invokes the encoder
on the raw NumPy matrix `self.data` (the prepared CUDA tensor `to_encode` is
unused), so for every state the call raises a TypeError instead of returning
the latent vectors. -/
theorem get_encoded_representations_type_error (s : AutoEncoder) :
    s.get_encoded_representations
      = Except.error "TypeError: linear expected a Tensor, got numpy.ndarray" :=
  rfl

/-- Running the encoder on the prepared tensor — the computation the
commented-out source line describes — succeeds on a CUDA-resident model and
yields one latent vector per row of the full feature matrix. -/
lemma get_encoded_representations_intended_ok (s : AutoEncoder)
    (hdev : s.device = Device.cuda) :
    get_encoded_representations_intended s
      = Except.ok ((s.encoder.forward false s.rng s.data).1) ∧
    ((s.encoder.forward false s.rng s.data).1).length = s.data.length := by
  constructor
  · simp [get_encoded_representations_intended, AutoEncoder.encoderApply,
      AutoEncoder.reset, hdev]
  · exact encoder_forward_eval_length s.encoder s.rng s.data

/-! ## Checkpoint round trips (C3) -/

lemma encoder_load_decoder_sd_noop (e : EncoderNet) (dnet : DecoderNet) :
    e.load_state_dict dnet.state_dict = e := by
  obtain ⟨⟨w1, b1⟩, ⟨g1, t1, m1, v1⟩, ⟨w2, b2⟩, ⟨g2, t2, m2, v2⟩, u⟩ := e
  by_cases hd : dnet.use_bn <;> cases u <;>
    simp [EncoderNet.load_state_dict, DecoderNet.state_dict,
      LinearP.state_dict, BnP.state_dict, lookupSD, getMatSD, getVecSD,
      hd, List.find?]

/-- C3 (code evaluation): after `save_decoder` and then `load_decoder` — with
any interleaved state change `t` of the object — the decoder holds whatever
parameters `t` had, not the saved checkpoint, and even the encoder is
untouched: `load_decoder` loads the decoder checkpoint into `self.encoder`
with `strict=False`, where the `decoder.*` keys match no `encoder.*` key, so
the call restores nothing at all. -/
theorem save_then_load_decoder_restores_nothing (s t : AutoEncoder)
    (d : CheckpointDir) :
    (t.load_decoder (s.save_decoder d)).decoder = t.decoder ∧
    (t.load_decoder (s.save_decoder d)).encoder = t.encoder := by
  refine ⟨rfl, ?_⟩
  show t.encoder.load_state_dict
    ((some s.decoder.state_dict).getD []) = t.encoder
  exact encoder_load_decoder_sd_noop t.encoder s.decoder

/-- In contrast, the encoder checkpoint round trip does restore the Encoder:
saving, perturbing the object to any state `t` (same batch-norm topology),
and loading brings every encoder parameter back to the saved values. -/
lemma save_then_load_encoder_roundtrip (s t : AutoEncoder) (d : CheckpointDir)
    (h1 : t.encoder.use_bn = true) (h2 : s.encoder.use_bn = true) :
    (t.load_encoder (s.save_encoder d)).encoder = s.encoder := by
  show t.encoder.load_state_dict
    ((some s.encoder.state_dict).getD []) = s.encoder
  rcases hse : s.encoder with ⟨⟨w1, b1⟩, ⟨g1, t1, m1, v1⟩, ⟨w2, b2⟩,
    ⟨g2, t2, m2, v2⟩, u⟩
  rw [hse] at h2
  simp only at h2
  subst h2
  simp [EncoderNet.load_state_dict, EncoderNet.state_dict,
    LinearP.state_dict, BnP.state_dict, lookupSD, getMatSD, getVecSD,
    h1, List.find?]

/-! ## One training step (C4) -/

lemma zipWith_add_replicate_zero (n : Nat) (g : RVec) (h : g.length = n) :
    List.zipWith (· + ·) (List.replicate n (0 : ℝ)) g = g := by
  induction n generalizing g with
  | zero =>
    cases g with
    | nil => rfl
    | cons b tb => simp at h
  | succ n ih =>
    cases g with
    | nil => simp at h
    | cons b tb =>
      simp only [List.replicate_succ, List.zipWith_cons_cons, zero_add]
      rw [ih tb (by simpa using h)]

/-- C4: `train_step` returns the mean-squared reconstruction error of the
decoder applied to the encoder output against the target; afterwards the
accumulated gradients of both optimizers equal exactly the gradients autograd
produced for this loss (they were zeroed before back-propagation), and each
network's parameters and optimizer state are the result of exactly one
optimizer step taken from the post-forward networks with those gradients. -/
theorem train_step_spec (s : AutoEncoder) (input target : RMat)
    (h1 : (s.autograd input target s.encoder s.decoder s.training s.rng).1.length
      = s.encGrad.length)
    (h2 : (s.autograd input target s.encoder s.decoder s.training s.rng).2.length
      = s.decGrad.length) :
    (s.train_step input target).1
      = mseLoss ((s.decoder.forward s.training
          ((s.encoder.forward s.training s.rng input).2.2)
          ((s.encoder.forward s.training s.rng input).1)).1) target ∧
    (s.train_step input target).2.encGrad
      = (s.autograd input target s.encoder s.decoder s.training s.rng).1 ∧
    (s.train_step input target).2.decGrad
      = (s.autograd input target s.encoder s.decoder s.training s.rng).2 ∧
    (s.train_step input target).2.encoder
      = (s.encOptStep ((s.encoder.forward s.training s.rng input).2.1)
          (s.autograd input target s.encoder s.decoder s.training s.rng).1
          s.encOptState).1 ∧
    (s.train_step input target).2.decoder
      = (s.decOptStep ((s.decoder.forward s.training
            ((s.encoder.forward s.training s.rng input).2.2)
            ((s.encoder.forward s.training s.rng input).1)).2.1)
          (s.autograd input target s.encoder s.decoder s.training s.rng).2
          s.decOptState).1 ∧
    (s.train_step input target).2.encOptState
      = (s.encOptStep ((s.encoder.forward s.training s.rng input).2.1)
          (s.autograd input target s.encoder s.decoder s.training s.rng).1
          s.encOptState).2 ∧
    (s.train_step input target).2.decOptState
      = (s.decOptStep ((s.decoder.forward s.training
            ((s.encoder.forward s.training s.rng input).2.2)
            ((s.encoder.forward s.training s.rng input).1)).2.1)
          (s.autograd input target s.encoder s.decoder s.training s.rng).2
          s.decOptState).2 := by
  have hz1 := zipWith_add_replicate_zero s.encGrad.length
    (s.autograd input target s.encoder s.decoder s.training s.rng).1 h1
  have hz2 := zipWith_add_replicate_zero s.decGrad.length
    (s.autograd input target s.encoder s.decoder s.training s.rng).2 h2
  simp [AutoEncoder.train_step, hz1, hz2]

/-- Witness for C4 at the degenerate concrete object: its autograd oracle
returns empty gradient vectors matching the empty accumulators, and the
returned loss is the mean-squared error of the forward pass. -/
theorem train_step_spec_witness :
    ((aeZero.autograd [] [] aeZero.encoder aeZero.decoder aeZero.training
        aeZero.rng).1.length = aeZero.encGrad.length ∧
     (aeZero.autograd [] [] aeZero.encoder aeZero.decoder aeZero.training
        aeZero.rng).2.length = aeZero.decGrad.length) ∧
    (aeZero.train_step [] []).1
      = mseLoss ((aeZero.decoder.forward aeZero.training
          ((aeZero.encoder.forward aeZero.training aeZero.rng []).2.2)
          ((aeZero.encoder.forward aeZero.training aeZero.rng []).1)).1) [] ∧
    (aeZero.train_step [] []).2.encGrad
      = (aeZero.autograd [] [] aeZero.encoder aeZero.decoder aeZero.training
          aeZero.rng).1 :=
  ⟨⟨rfl, rfl⟩, (train_step_spec aeZero [] [] rfl rfl).1,
    (train_step_spec aeZero [] [] rfl rfl).2.1⟩

/-! ## Validation loss (C6) -/

/-- C6: `get_val_loss` returns the mean-squared loss of the evaluation-mode
forward pass (encoder then decoder) against the target, and the resulting
object state is exactly the input state with both networks switched to
evaluation mode — in particular every learnable parameter of the Encoder and
the Decoder, both gradient accumulators and both optimizer states are
unchanged, and no optimizer step is taken. -/
theorem get_val_loss_spec (s : AutoEncoder) (input target : RMat) :
    (s.get_val_loss input target).1
      = mseLoss ((s.decoder.forward false
          ((s.encoder.forward false s.rng input).2.2)
          ((s.encoder.forward false s.rng input).1)).1) target ∧
    (s.get_val_loss input target).2 = s.reset false := by
  have henc : s.encoder.forward false s.rng input
      = ((s.encoder.forward false s.rng input).1, s.encoder, s.rng) := by
    by_cases h : s.encoder.use_bn <;>
      simp [EncoderNet.forward, h]
  constructor
  · rfl
  · show ({ s.reset false with
        encoder := (s.encoder.forward false s.rng input).2.1,
        decoder := (s.decoder.forward false
          ((s.encoder.forward false s.rng input).2.2)
          ((s.encoder.forward false s.rng input).1)).2.1,
        rng := (s.decoder.forward false
          ((s.encoder.forward false s.rng input).2.2)
          ((s.encoder.forward false s.rng input).1)).2.2 } : AutoEncoder)
      = s.reset false
    rw [henc]
    by_cases h2 : s.decoder.use_bn <;>
      simp [DecoderNet.forward, h2, AutoEncoder.reset]

/-! ## Reconstruction shape and range (C7) -/

lemma length_linearFwd (p : LinearP) (nin nout : Nat)
    (h : LinearWf p nin nout) (x : RVec) : (linearFwd p x).length = nout := by
  obtain ⟨hw, hr, hb⟩ := h
  simp [linearFwd, hw, hb]

lemma length_reluV (x : RVec) : (reluV x).length = x.length := by
  simp [reluV]

lemma length_sigmoidV (x : RVec) : (sigmoidV x).length = x.length := by
  simp [sigmoidV]

lemma length_bnEval (p : BnP) (c : Nat) (h : BnWf p c) (x : RVec)
    (hx : x.length = c) : (bnEval p x).length = c := by
  obtain ⟨hg, hb, hm, hv⟩ := h
  simp [bnEval, hg, hb, hm, hv, hx]

lemma sigmoid_pos (a : ℝ) : 0 < sigmoid a := by
  have hden : (0 : ℝ) < 1 + Real.exp (-a) := by
    have := Real.exp_pos (-a)
    linarith
  exact div_pos one_pos hden

lemma sigmoid_lt_one (a : ℝ) : sigmoid a < 1 := by
  have hexp := Real.exp_pos (-a)
  have hden : (0 : ℝ) < 1 + Real.exp (-a) := by linarith
  rw [sigmoid, div_lt_one hden]
  linarith

lemma sigmoidV_mem_Ioo (v : RVec) : ∀ y ∈ sigmoidV v, 0 < y ∧ y < 1 := by
  intro y hy
  obtain ⟨a, _, rfl⟩ := List.mem_map.mp hy
  exact ⟨sigmoid_pos a, sigmoid_lt_one a⟩

/-- C7: for well-shaped networks and any input vector of the configured
input length, the decoder reconstruction of the encoder output again has the
input length, and — the final layer being the sigmoid squashing activation —
every component of the reconstruction lies strictly between 0 and 1. -/
theorem reconstruction_shape_and_range (enc : EncoderNet) (dec : DecoderNet)
    (fSz iSz eSz : Nat) (henc : EncoderWf enc fSz iSz eSz)
    (hdec : DecoderWf dec fSz iSz eSz) (x : RVec) (hx : x.length = fSz) :
    (dec.forwardRow (enc.forwardRow x)).length = fSz ∧
    ∀ y ∈ dec.forwardRow (enc.forwardRow x), 0 < y ∧ y < 1 := by
  obtain ⟨hl1, hb1, hl2, hb2⟩ := hdec
  constructor
  · by_cases h : dec.use_bn
    · simp only [DecoderNet.forwardRow, h, if_true]
      rw [length_sigmoidV,
        length_bnEval dec.bn2 fSz hb2 _ (length_linearFwd dec.lin2 iSz fSz hl2 _)]
    · rw [DecoderNet.forwardRow, if_neg h, length_sigmoidV,
        length_linearFwd dec.lin2 iSz fSz hl2]
  · by_cases h : dec.use_bn
    · simp only [DecoderNet.forwardRow, h, if_true]
      exact sigmoidV_mem_Ioo _
    · rw [DecoderNet.forwardRow, if_neg h]
      exact sigmoidV_mem_Ioo _

/-- Witness for C7 with one-dimensional layers (all weights zero) and the
input `[0]`. -/
theorem reconstruction_shape_and_range_witness :
    (EncoderWf ⟨⟨[[0]], [0]⟩, ⟨[0], [0], [0], [1]⟩, ⟨[[0]], [0]⟩,
        ⟨[0], [0], [0], [1]⟩, true⟩ 1 1 1 ∧
     DecoderWf ⟨⟨[[0]], [0]⟩, ⟨[0], [0], [0], [1]⟩, ⟨[[0]], [0]⟩,
        ⟨[0], [0], [0], [1]⟩, true⟩ 1 1 1 ∧
     ([(0 : ℝ)]).length = 1) ∧
    ((DecoderNet.forwardRow ⟨⟨[[0]], [0]⟩, ⟨[0], [0], [0], [1]⟩, ⟨[[0]], [0]⟩,
        ⟨[0], [0], [0], [1]⟩, true⟩
      (EncoderNet.forwardRow ⟨⟨[[0]], [0]⟩, ⟨[0], [0], [0], [1]⟩, ⟨[[0]], [0]⟩,
        ⟨[0], [0], [0], [1]⟩, true⟩ [0])).length = 1 ∧
     ∀ y ∈ DecoderNet.forwardRow ⟨⟨[[0]], [0]⟩, ⟨[0], [0], [0], [1]⟩,
        ⟨[[0]], [0]⟩, ⟨[0], [0], [0], [1]⟩, true⟩
        (EncoderNet.forwardRow ⟨⟨[[0]], [0]⟩, ⟨[0], [0], [0], [1]⟩,
          ⟨[[0]], [0]⟩, ⟨[0], [0], [0], [1]⟩, true⟩ [0]), 0 < y ∧ y < 1) :=
  ⟨⟨⟨by simp [LinearWf], by simp [BnWf], by simp [LinearWf], by simp [BnWf]⟩,
    ⟨by simp [LinearWf], by simp [BnWf], by simp [LinearWf], by simp [BnWf]⟩,
    rfl⟩,
   reconstruction_shape_and_range _ _ 1 1 1
     ⟨by simp [LinearWf], by simp [BnWf], by simp [LinearWf], by simp [BnWf]⟩
     ⟨by simp [LinearWf], by simp [BnWf], by simp [LinearWf], by simp [BnWf]⟩
     [0] rfl⟩

/-! ## Text embedding dispatch (C9) -/

/-- C9 (code evaluation): for every oracle instantiation and sentence, the
`tf-idf` selector makes `get_embedding` return Python's `None` — the
`get_tf_idf_embedding` body builds the tf-idf matrix but has no return
statement — contradicting that every supported selector yields a numeric
vector. -/
theorem get_embedding_tf_idf_returns_none (bert : List String → Row)
    (tokenize : String → List String) (stemLemma : String → String)
    (stop_words dictKeys sentence : List String) :
    get_embedding bert tokenize stemLemma stop_words dictKeys sentence
      "tf-idf" = Except.ok none :=
  rfl

lemma bowSetToken_inv (stemLemma : String → String) (dictKeys : List String)
    (vec v2 : Row) (token : String)
    (h : bowSetToken stemLemma dictKeys vec token = Except.ok v2)
    (hlen : vec.length = dictKeys.length)
    (hval : ∀ x ∈ vec, x = 0 ∨ x = 1) :
    v2.length = dictKeys.length ∧ ∀ x ∈ v2, x = 0 ∨ x = 1 := by
  unfold bowSetToken at h
  by_cases hy : isYearToken token
  · rw [if_pos hy] at h
    cases hidx : dictKeys.indexOf? token with
    | none => rw [hidx] at h; exact absurd h (by simp)
    | some i =>
      rw [hidx] at h
      obtain rfl : vec.set i 1 = v2 := by simpa using h
      refine ⟨by simp [hlen], ?_⟩
      intro x hx
      rcases List.mem_or_eq_of_mem_set hx with hmem | rfl
      · exact hval x hmem
      · exact Or.inr rfl
  · rw [if_neg hy] at h
    cases hidx : dictKeys.indexOf? (stemLemma token.toLower) with
    | none => rw [hidx] at h; exact absurd h (by simp)
    | some i =>
      rw [hidx] at h
      obtain rfl : vec.set i 1 = v2 := by simpa using h
      refine ⟨by simp [hlen], ?_⟩
      intro x hx
      rcases List.mem_or_eq_of_mem_set hx with hmem | rfl
      · exact hval x hmem
      · exact Or.inr rfl

lemma foldlM_except_inv {α : Type} (P : Row → Prop)
    (f : Row → α → Except String Row)
    (hf : ∀ s a s2, f s a = Except.ok s2 → P s → P s2) :
    ∀ (l : List α) (s s2 : Row), l.foldlM f s = Except.ok s2 → P s → P s2 := by
  intro l
  induction l with
  | nil =>
    intro s s2 h hs
    simp only [List.foldlM_nil, pure, Except.pure, Except.ok.injEq] at h
    rwa [← h]
  | cons a t ih =>
    intro s s2 h hs
    rw [List.foldlM_cons] at h
    cases hfa : f s a with
    | error e =>
      rw [hfa] at h
      simp only [bind, Except.bind] at h
      exact Except.noConfusion h
    | ok s1 =>
      rw [hfa] at h
      simp only [bind, Except.bind] at h
      exact ih s1 s2 h (hf s a s1 hfa hs)

lemma bowWord_inv (tokenize : String → List String)
    (stemLemma : String → String) (stop_words dictKeys : List String)
    (vec v2 : Row) (word : String)
    (h : bowWord tokenize stemLemma stop_words dictKeys vec word
      = Except.ok v2)
    (hlen : vec.length = dictKeys.length)
    (hval : ∀ x ∈ vec, x = 0 ∨ x = 1) :
    v2.length = dictKeys.length ∧ ∀ x ∈ v2, x = 0 ∨ x = 1 := by
  have := foldlM_except_inv
    (fun v => v.length = dictKeys.length ∧ ∀ x ∈ v, x = 0 ∨ x = 1)
    (bowSetToken stemLemma dictKeys)
    (fun s a s2 hok hs => bowSetToken_inv stemLemma dictKeys s s2 a hok hs.1 hs.2)
    _ vec v2 h ⟨hlen, hval⟩
  exact this

/-- The bag-of-words branch, when it succeeds, returns a vector of dimension
equal to the vocabulary size whose entries are presence indicators in
`{0, 1}` (supporting the `bow` half of the claim). -/
lemma get_bow_embedding_shape (tokenize : String → List String)
    (stemLemma : String → String) (stop_words sentence dictKeys : List String)
    (v : Row)
    (h : get_bow_embedding tokenize stemLemma stop_words sentence dictKeys
      = Except.ok v) :
    v.length = dictKeys.length ∧ ∀ x ∈ v, x = 0 ∨ x = 1 := by
  have := foldlM_except_inv
    (fun w => w.length = dictKeys.length ∧ ∀ x ∈ w, x = 0 ∨ x = 1)
    (bowWord tokenize stemLemma stop_words dictKeys)
    (fun s a s2 hok hs =>
      bowWord_inv tokenize stemLemma stop_words dictKeys s s2 a hok hs.1 hs.2)
    sentence (List.replicate dictKeys.length 0) v h
    ⟨by simp, by intro x hx; exact Or.inl (List.eq_of_mem_replicate hx)⟩
  exact this

/-! ## Loss histories of the training loop (C10) -/

lemma trainLoopBatch_lengths (p : Nat) (s : AutoEncoder)
    (ib : Nat × RMat × RMat) :
    ((trainLoopBatch p s ib).train_losses.length
      = s.train_losses.length + (if ib.1 % p == 0 && ib.1 != 0 then 1 else 0)) ∧
    ((trainLoopBatch p s ib).val_losses.length
      = s.val_losses.length + (if ib.1 % p == 0 && ib.1 != 0 then 1 else 0)) ∧
    (trainLoopBatch p s ib).batches = s.batches := by
  by_cases hc : (ib.1 % p == 0 && ib.1 != 0) = true
  · simp [trainLoopBatch, hc, AutoEncoder.train_step, AutoEncoder.get_val_loss,
      AutoEncoder.reset]
  · rw [Bool.not_eq_true] at hc
    simp [trainLoopBatch, hc, AutoEncoder.train_step, AutoEncoder.reset]

lemma foldl_trainLoopBatch_lengths (p : Nat) :
    ∀ (l : List (Nat × RMat × RMat)) (s : AutoEncoder),
    ((l.foldl (trainLoopBatch p) s).train_losses.length
      = s.train_losses.length + l.countP (fun q => q.1 % p == 0 && q.1 != 0)) ∧
    ((l.foldl (trainLoopBatch p) s).val_losses.length
      = s.val_losses.length + l.countP (fun q => q.1 % p == 0 && q.1 != 0)) ∧
    (l.foldl (trainLoopBatch p) s).batches = s.batches := by
  intro l
  induction l with
  | nil => intro s; simp
  | cons a t ih =>
    intro s
    obtain ⟨hA, hB, hC⟩ := trainLoopBatch_lengths p s a
    obtain ⟨iA, iB, iC⟩ := ih (trainLoopBatch p s a)
    refine ⟨?_, ?_, ?_⟩
    · simp only [List.foldl_cons, List.countP_cons, iA, hA]
      omega
    · simp only [List.foldl_cons, List.countP_cons, iB, hB]
      omega
    · rw [List.foldl_cons, iC, hC]

lemma train_epoch_lengths (s : AutoEncoder) (p : Nat) :
    ((s.train_epoch p).train_losses.length
      = s.train_losses.length
        + (List.range s.batches.length).countP (fun i => i % p == 0 && i != 0)) ∧
    ((s.train_epoch p).val_losses.length
      = s.val_losses.length
        + (List.range s.batches.length).countP (fun i => i % p == 0 && i != 0)) ∧
    (s.train_epoch p).batches = s.batches := by
  obtain ⟨hA, hB, hC⟩ := foldl_trainLoopBatch_lengths p s.batches.enum s
  have hcnt : s.batches.enum.countP (fun q => q.1 % p == 0 && q.1 != 0)
      = (List.range s.batches.length).countP (fun i => i % p == 0 && i != 0) := by
    rw [← List.enum_map_fst s.batches, List.countP_map]
    rfl
  exact ⟨by rw [AutoEncoder.train_epoch, hA, hcnt],
    by rw [AutoEncoder.train_epoch, hB, hcnt],
    by rw [AutoEncoder.train_epoch, hC]⟩

lemma train_loop_lengths_aux (p : Nat) : ∀ (epochs : Nat) (s : AutoEncoder),
    ((s.train_loop epochs p).train_losses.length
      = s.train_losses.length
        + epochs * (List.range s.batches.length).countP
            (fun i => i % p == 0 && i != 0)) ∧
    ((s.train_loop epochs p).val_losses.length
      = s.val_losses.length
        + epochs * (List.range s.batches.length).countP
            (fun i => i % p == 0 && i != 0)) ∧
    (s.train_loop epochs p).batches = s.batches := by
  intro epochs
  induction epochs with
  | zero => intro s; simp [AutoEncoder.train_loop]
  | succ n ih =>
    intro s
    have hstep : s.train_loop (n + 1) p = (s.train_loop n p).train_epoch p := by
      rw [AutoEncoder.train_loop, AutoEncoder.train_loop, List.range_succ,
        List.foldl_append, List.foldl_cons, List.foldl_nil]
    obtain ⟨iA, iB, iC⟩ := ih s
    obtain ⟨eA, eB, eC⟩ := train_epoch_lengths (s.train_loop n p) p
    rw [iC] at eA eB
    refine ⟨?_, ?_, ?_⟩
    · rw [hstep, eA, iA, Nat.succ_mul]
      omega
    · rw [hstep, eB, iB, Nat.succ_mul]
      omega
    · rw [hstep, eC, iC]

/-- C10: the two loss histories are appended together — exactly at the
batches whose index `i` satisfies `i % print_every_n_batches == 0` and
`i ≠ 0` — so after any run the histories have equal length; moreover that
common length grows by exactly the number of reporting batches per epoch,
times the number of epochs. -/
theorem train_loop_loss_histories (s : AutoEncoder) (epochs p : Nat)
    (hp : 0 < p) (h0 : s.train_losses.length = s.val_losses.length) :
    (s.train_loop epochs p).train_losses.length
      = (s.train_loop epochs p).val_losses.length ∧
    (s.train_loop epochs p).train_losses.length
      = s.train_losses.length
        + epochs * (List.range s.batches.length).countP
            (fun i => i % p == 0 && i != 0) := by
  obtain ⟨hA, hB, _⟩ := train_loop_lengths_aux p epochs s
  exact ⟨by rw [hA, hB, h0], hA⟩

/-- Witness for C10 at the degenerate concrete object, two epochs,
reporting period 100. -/
theorem train_loop_loss_histories_witness :
    (0 < 100 ∧ aeZero.train_losses.length = aeZero.val_losses.length) ∧
    (aeZero.train_loop 2 100).train_losses.length
      = (aeZero.train_loop 2 100).val_losses.length ∧
    (aeZero.train_loop 2 100).train_losses.length
      = aeZero.train_losses.length
        + 2 * (List.range aeZero.batches.length).countP
            (fun i => i % 100 == 0 && i != 0) :=
  ⟨⟨by decide, rfl⟩, train_loop_loss_histories aeZero 2 100 (by decide) rfl⟩
